import Mathlib

/-!
Verification of the smart-playlist ingestion pipeline.

The definitions below are shallow embeddings of the Python source:
* `deduplicate_consecutive_plays` from `src/backend/ingest.py` (lines 151-204),
* the play-persistence loop, genre backfill pass, audio-feature batch loop and
  checkpoint phase of `main` in `src/backend/ingest.py`,
* the validation phase of `get_audio_features` (`src/backend/ingest.py`, lines 124-149),
* `detect_skipped` from `src/ui/streamlit_tag.py` (lines 254-312).

Played-at instants are modelled as rationals (seconds); network calls are
modelled as `Except`-valued oracles passed in as parameters; Python exceptions
become `Except.error`; the SQLite tables become Lean lists of row structures.
-/

/-- One raw play event from the external feed: `item["track"]["id"]`,
`item["played_at"]` (modelled as an instant in seconds) and
`str(item.get("context"))`. -/
structure PlayItem where
  trackId : String
  playedAt : ℚ
  context : String
  deriving Repr, DecidableEq

/-- The inner lookahead loop of `deduplicate_consecutive_plays`: starting from
the anchor event, drop successive events while the track id matches the anchor
and the absolute time difference to the anchor is strictly under 300 seconds;
return the remaining suffix (where the scan resumes). -/
def skipRun (anchor : PlayItem) : List PlayItem → List PlayItem
  | [] => []
  | x :: xs =>
    if x.trackId = anchor.trackId ∧ |anchor.playedAt - x.playedAt| < 300 then
      skipRun anchor xs
    else
      x :: xs

theorem skipRun_length_le (anchor : PlayItem) : ∀ l : List PlayItem,
    (skipRun anchor l).length ≤ l.length := by
  intro l
  induction l with
  | nil => simp [skipRun]
  | cons x xs ih =>
    by_cases h : x.trackId = anchor.trackId ∧ |anchor.playedAt - x.playedAt| < 300
    · simpa [skipRun, h] using Nat.le_succ_of_le ih
    · simp [skipRun, h]

/-- `deduplicate_consecutive_plays` from `src/backend/ingest.py`: emit the
first event of each run, then resume scanning after the whole run
(`deduplicated.append(current_item)` and `i = j if j > i + 1 else i + 1`,
which in both branches sets `i` to the final lookahead position `j`). -/
def deduplicate_consecutive_plays : List PlayItem → List PlayItem
  | [] => []
  | x :: xs => x :: deduplicate_consecutive_plays (skipRun x xs)
termination_by l => l.length
decreasing_by
  simpa using Nat.lt_succ_of_le (skipRun_length_le x xs)

theorem skipRun_append_of_run (anchor : PlayItem) (xs rest : List PlayItem)
    (hrun : ∀ y ∈ xs, y.trackId = anchor.trackId ∧ |anchor.playedAt - y.playedAt| < 300)
    (hstop : ∀ z, rest.head? = some z →
      ¬ (z.trackId = anchor.trackId ∧ |anchor.playedAt - z.playedAt| < 300)) :
    skipRun anchor (xs ++ rest) = rest := by
  induction xs with
  | nil =>
    cases rest with
    | nil => simp [skipRun]
    | cons z zs =>
      have hz := hstop z (by simp)
      simp [skipRun, hz]
  | cons y ys ih =>
    have hy := hrun y (by simp)
    have hys : ∀ y' ∈ ys, y'.trackId = anchor.trackId ∧
        |anchor.playedAt - y'.playedAt| < 300 := by
      intro y' hy'
      exact hrun y' (by simp [hy'])
    simpa [skipRun, hy] using ih hys

/-- C1: the duplicate merger collapses each maximal run of consecutive events
of the same track, each strictly under 300 seconds (in absolute value) from the
run's first event, into exactly the first event; an event of another track or
exactly 300 seconds or more from the anchor ends the run and is kept distinct;
on track A at t=0, A at t=120, A at t=250, B at t=400 it emits exactly one
event for the A-run and one for B. -/
theorem C1_dedup_collapses_runs :
    (∀ (x : PlayItem) (xs rest : List PlayItem),
      (∀ y ∈ xs, y.trackId = x.trackId ∧ |x.playedAt - y.playedAt| < 300) →
      (∀ z, rest.head? = some z →
        ¬ (z.trackId = x.trackId ∧ |x.playedAt - z.playedAt| < 300)) →
      deduplicate_consecutive_plays (x :: (xs ++ rest)) =
        x :: deduplicate_consecutive_plays rest)
    ∧ (∀ x y : PlayItem, y.trackId = x.trackId → |x.playedAt - y.playedAt| = 300 →
      deduplicate_consecutive_plays [x, y] = [x, y])
    ∧ deduplicate_consecutive_plays
        [⟨"A", 0, ""⟩, ⟨"A", 120, ""⟩, ⟨"A", 250, ""⟩, ⟨"B", 400, ""⟩] =
        [⟨"A", 0, ""⟩, ⟨"B", 400, ""⟩] := by
  refine ⟨?_, ?_, ?_⟩
  · intro x xs rest hrun hstop
    rw [deduplicate_consecutive_plays, skipRun_append_of_run x xs rest hrun hstop]
  · intro x y htrack habs
    have hnot : ¬ (y.trackId = x.trackId ∧ |x.playedAt - y.playedAt| < 300) := by
      rintro ⟨-, hlt⟩
      simp [habs] at hlt
    simp [deduplicate_consecutive_plays, skipRun, hnot]
  · norm_num [deduplicate_consecutive_plays, skipRun]

/-- Closed instance of `C1_dedup_collapses_runs`: the first conjunct applied to
a three-event same-track run followed by a distinct track, and the second
conjunct applied to two same-track events exactly 300 seconds apart. -/
theorem C1_dedup_collapses_runs_witness :
    deduplicate_consecutive_plays
        [⟨"A", 0, ""⟩, ⟨"A", 120, ""⟩, ⟨"A", 250, ""⟩, ⟨"B", 400, ""⟩] =
      ⟨"A", 0, ""⟩ :: deduplicate_consecutive_plays [⟨"B", 400, ""⟩]
    ∧ deduplicate_consecutive_plays [⟨"A", 0, ""⟩, ⟨"A", 300, ""⟩] =
      [⟨"A", 0, ""⟩, ⟨"A", 300, ""⟩] := by
  constructor
  · exact C1_dedup_collapses_runs.1 ⟨"A", 0, ""⟩ [⟨"A", 120, ""⟩, ⟨"A", 250, ""⟩]
      [⟨"B", 400, ""⟩]
      (by intro y hy; simp only [List.mem_cons, List.not_mem_nil, or_false] at hy
          rcases hy with hy | hy <;> subst hy <;> norm_num)
      (by intro z hz; simp at hz; subst hz; norm_num)
  · exact C1_dedup_collapses_runs.2.1 ⟨"A", 0, ""⟩ ⟨"A", 300, ""⟩ rfl (by norm_num)

/-- One row of the `plays` table as written by ingestion: `track_id`,
`played_at` (an instant) and the context string
(the other columns stay NULL during ingestion). -/
structure PlayRow where
  track_id : String
  played_at : ℚ
  context : String
  deriving Repr, DecidableEq

/-- The existence check before a play insert:
`SELECT COUNT(*) FROM plays WHERE track_id = ? AND played_at = ?` followed by
`COUNT > 0` (`src/backend/ingest.py`, lines 307-308). -/
def playExists (db : List PlayRow) (tid : String) (t : ℚ) : Bool :=
  db.any (fun r => decide (r.track_id = tid ∧ r.played_at = t))

/-- The play-persistence loop of `main` (`src/backend/ingest.py`, lines
278-316) restricted to the `plays` table: for each item, insert a row only
when the (track_id, played_at) existence check fails, counting inserted rows
in `new_plays_count`.  Returns the final table and the count. -/
def ingestPlays : List PlayItem → List PlayRow → List PlayRow × Nat
  | [], db => (db, 0)
  | item :: rest, db =>
    if playExists db item.trackId item.playedAt then
      ingestPlays rest db
    else
      let out := ingestPlays rest (db ++ [⟨item.trackId, item.playedAt, item.context⟩])
      (out.1, out.2 + 1)

/-- No two rows of the `plays` table share the (track_id, played_at) pair. -/
def pairUnique (db : List PlayRow) : Prop :=
  db.Pairwise (fun a b => ¬ (a.track_id = b.track_id ∧ a.played_at = b.played_at))

theorem ingestPlays_subset : ∀ (items : List PlayItem) (db : List PlayRow),
    db ⊆ (ingestPlays items db).1 := by
  intro items
  induction items with
  | nil => intro db; simp [ingestPlays]
  | cons item rest ih =>
    intro db
    by_cases h : playExists db item.trackId item.playedAt = true
    · simpa [ingestPlays, h] using ih db
    · have hsub := ih (db ++ [⟨item.trackId, item.playedAt, item.context⟩])
      simp only [ingestPlays, h, if_false, Bool.false_eq_true]
      exact fun r hr => hsub (List.mem_append_left _ hr)

theorem playExists_mono {db db' : List PlayRow} (hsub : db ⊆ db') {tid : String}
    {t : ℚ} (h : playExists db tid t = true) : playExists db' tid t = true := by
  simp only [playExists, List.any_eq_true, decide_eq_true_eq] at h ⊢
  obtain ⟨r, hr, hp⟩ := h
  exact ⟨r, hsub hr, hp⟩

theorem ingestPlays_contains : ∀ (items : List PlayItem) (db : List PlayRow),
    ∀ item ∈ items,
      playExists (ingestPlays items db).1 item.trackId item.playedAt = true := by
  intro items
  induction items with
  | nil => simp
  | cons it rest ih =>
    intro db item hmem
    rcases List.mem_cons.mp hmem with h | h
    · subst h
      by_cases hex : playExists db item.trackId item.playedAt = true
      · have hsub := ingestPlays_subset rest db
        simpa [ingestPlays, hex] using playExists_mono hsub hex
      · have hrow : playExists (db ++ [⟨item.trackId, item.playedAt, item.context⟩])
            item.trackId item.playedAt = true := by
          simp [playExists]
        have hsub := ingestPlays_subset rest
          (db ++ [⟨item.trackId, item.playedAt, item.context⟩])
        simpa [ingestPlays, hex] using playExists_mono hsub hrow
    · by_cases hex : playExists db it.trackId it.playedAt = true
      · simpa [ingestPlays, hex] using ih db item h
      · simpa [ingestPlays, hex] using
          ih (db ++ [⟨it.trackId, it.playedAt, it.context⟩]) item h

theorem ingestPlays_of_all_present : ∀ (items : List PlayItem) (db : List PlayRow),
    (∀ item ∈ items, playExists db item.trackId item.playedAt = true) →
    ingestPlays items db = (db, 0) := by
  intro items
  induction items with
  | nil => intro db _; rfl
  | cons it rest ih =>
    intro db h
    have hex := h it (by simp)
    have hrest := ih db (fun item hm => h item (by simp [hm]))
    simp [ingestPlays, hex, hrest]

/-- C2: (track_id, played_at) uniqueness of the `plays` table is preserved by
the play-persistence loop, because a row is inserted only when the existence
check for its pair fails. -/
theorem C2_play_pair_uniqueness (items : List PlayItem) (db : List PlayRow)
    (h : pairUnique db) : pairUnique (ingestPlays items db).1 := by
  induction items generalizing db with
  | nil => simpa [ingestPlays] using h
  | cons it rest ih =>
    by_cases hex : playExists db it.trackId it.playedAt = true
    · simpa [ingestPlays, hex] using ih db h
    · have hex' : playExists db it.trackId it.playedAt = false := by
        simpa using hex
      have hall : ∀ r ∈ db, ¬ (r.track_id = it.trackId ∧ r.played_at = it.playedAt) := by
        simpa [playExists, List.any_eq_false] using hex'
      have hnew : pairUnique (db ++ [⟨it.trackId, it.playedAt, it.context⟩]) := by
        rw [pairUnique, List.pairwise_append]
        refine ⟨h, by simp [pairUnique], ?_⟩
        intro a ha b hb
        have hb' : b = ⟨it.trackId, it.playedAt, it.context⟩ := by simpa using hb
        subst hb'
        exact hall a ha
      simpa [ingestPlays, hex] using ih _ hnew

/-- Closed instance of `C2_play_pair_uniqueness`: ingesting two items, one of
them a repeat, into the empty table yields a table with pairwise-distinct
(track_id, played_at) pairs. -/
theorem C2_play_pair_uniqueness_witness :
    pairUnique (ingestPlays [⟨"t1", 10, "none"⟩, ⟨"t1", 10, "none"⟩] []).1 :=
  C2_play_pair_uniqueness [⟨"t1", 10, "none"⟩, ⟨"t1", 10, "none"⟩] []
    (List.Pairwise.nil)

/-- C3: the persistence phase is idempotent — re-running it over the same item
list, starting from the table the first run produced, changes nothing and
counts zero new plays. -/
theorem C3_ingest_idempotent (items : List PlayItem) (db : List PlayRow) :
    ingestPlays items (ingestPlays items db).1 = ((ingestPlays items db).1, 0) :=
  ingestPlays_of_all_present items _ (fun item hm => ingestPlays_contains items db item hm)

/-- Accumulator for the running minimum over the later plays. -/
def minAcc : Option ℚ → ℚ → Option ℚ
  | none, x => some x
  | some m, x => some (min m x)

/-- The next-play query of `detect_skipped`:
`SELECT played_at FROM plays WHERE played_at > ? ORDER BY played_at ASC LIMIT 1`
(`src/ui/streamlit_tag.py`, lines 271-276) — the least persisted played-at
instant strictly greater than the given one, if any. -/
def earliestAfter (plays : List ℚ) (t : ℚ) : Option ℚ :=
  (plays.filter (fun x => decide (t < x))).foldl minAcc none

theorem foldl_minAcc_some : ∀ (l : List ℚ) (m : ℚ),
    ∃ m', l.foldl minAcc (some m) = some m' ∧ (m' = m ∨ m' ∈ l) ∧ m' ≤ m ∧
      ∀ x ∈ l, m' ≤ x := by
  intro l
  induction l with
  | nil => intro m; exact ⟨m, rfl, Or.inl rfl, le_refl m, by simp⟩
  | cons x xs ih =>
    intro m
    obtain ⟨m', hfold, hmem, hle, hall⟩ := ih (min m x)
    refine ⟨m', by simpa [minAcc] using hfold, ?_, le_trans hle (min_le_left m x), ?_⟩
    · rcases hmem with h | h
      · rcases min_choice m x with hc | hc
        · exact Or.inl (h.trans hc)
        · exact Or.inr (by simp [h.trans hc])
      · exact Or.inr (by simp [h])
    · intro y hy
      rcases List.mem_cons.mp hy with h | h
      · exact h ▸ le_trans hle (min_le_right m x)
      · exact hall y h

theorem earliestAfter_eq_none_iff (plays : List ℚ) (t : ℚ) :
    earliestAfter plays t = none ↔ ∀ x ∈ plays, ¬ t < x := by
  rw [earliestAfter]
  rcases hf : plays.filter (fun x => decide (t < x)) with - | ⟨y, ys⟩
  · rw [List.filter_eq_nil_iff] at hf
    simpa using hf
  · constructor
    · intro h
      obtain ⟨m', hfold, -⟩ := foldl_minAcc_some ys y
      rw [List.foldl_cons] at h
      simp [minAcc, hfold] at h
    · intro h
      exfalso
      have hy : y ∈ plays.filter (fun x => decide (t < x)) := by simp [hf]
      rw [List.mem_filter] at hy
      exact h y hy.1 (by simpa using hy.2)

theorem earliestAfter_eq_some (plays : List ℚ) (t m : ℚ)
    (h : earliestAfter plays t = some m) :
    m ∈ plays ∧ t < m ∧ ∀ x ∈ plays, t < x → m ≤ x := by
  rw [earliestAfter] at h
  rcases hf : plays.filter (fun x => decide (t < x)) with - | ⟨y, ys⟩
  · rw [hf] at h
    simp at h
  · rw [hf, List.foldl_cons] at h
    obtain ⟨m', hfold, hmem, hle, hall⟩ := foldl_minAcc_some ys y
    rw [show minAcc none y = some y from rfl, hfold] at h
    have hmm : m = m' := (Option.some.inj h).symm
    subst hmm
    have hmemf : m ∈ plays.filter (fun x => decide (t < x)) := by
      rcases hmem with hm | hm
      · simp [hf, hm]
      · simp [hf, hm]
    rw [List.mem_filter] at hmemf
    refine ⟨hmemf.1, by simpa using hmemf.2, ?_⟩
    intro x hx htx
    have hxf : x ∈ plays.filter (fun x => decide (t < x)) := by
      rw [List.mem_filter]
      exact ⟨hx, by simpa using htx⟩
    rw [hf] at hxf
    rcases List.mem_cons.mp hxf with hxy | hxy
    · exact hxy ▸ hle
    · exact hall x hxy

/-- `detect_skipped` from `src/ui/streamlit_tag.py` (lines 254-312): look up
the earliest later play; when none exists return the unknown indicator;
otherwise classify as skipped exactly when the gap is under half the track
duration (`duration_ms / 1000 * 0.5`). -/
def detect_skipped (plays : List ℚ) (played_at : ℚ) (duration_ms : ℕ) :
    Bool × String :=
  match earliestAfter plays played_at with
  | none => (false, "⏸️ (unknown)")
  | some next_played_at =>
    let time_between := next_played_at - played_at
    let song_duration_seconds : ℚ := (duration_ms : ℚ) / 1000
    let skip_threshold := song_duration_seconds * (1 / 2)
    if time_between < skip_threshold then (true, "⏭️ (skipped)")
    else (false, "✅ (played)")

/-- C4: with a later play present, the skip detector uses the earliest
persisted play strictly after the current one, and classifies the current play
as skipped exactly when the gap is strictly under 50% of the track duration;
at duration 200000 ms a 60-second gap is skipped and a 150-second gap is not. -/
theorem C4_detect_skipped_gap_rule :
    (∀ (plays : List ℚ) (t m : ℚ), earliestAfter plays t = some m →
      m ∈ plays ∧ t < m ∧ ∀ x ∈ plays, t < x → m ≤ x)
    ∧ (∀ (plays : List ℚ) (t m : ℚ) (dur : ℕ), earliestAfter plays t = some m →
      (detect_skipped plays t dur = (true, "⏭️ (skipped)") ↔
        m - t < (dur : ℚ) / 1000 * (1 / 2))
      ∧ (¬ m - t < (dur : ℚ) / 1000 * (1 / 2) →
        detect_skipped plays t dur = (false, "✅ (played)")))
    ∧ detect_skipped [60] 0 200000 = (true, "⏭️ (skipped)")
    ∧ detect_skipped [150] 0 200000 = (false, "✅ (played)") := by
  refine ⟨earliestAfter_eq_some, ?_, ?_, ?_⟩
  · intro plays t m dur h
    rw [detect_skipped, h]
    constructor
    · by_cases hlt : m - t < (dur : ℚ) / 1000 * (1 / 2)
      · simp [hlt]
      · simp [hlt]
    · intro hge
      simp only [hge, if_false]
  · norm_num [detect_skipped, earliestAfter, minAcc]
  · norm_num [detect_skipped, earliestAfter, minAcc]

/-- Closed instance of `C4_detect_skipped_gap_rule`: its first two conjuncts
applied to the single later play at t = 60 for a play at t = 0 of a
200000 ms track. -/
theorem C4_detect_skipped_gap_rule_witness :
    ((60 : ℚ) ∈ [(60 : ℚ)] ∧ (0 : ℚ) < 60 ∧
      ∀ x ∈ [(60 : ℚ)], (0 : ℚ) < x → (60 : ℚ) ≤ x)
    ∧ (detect_skipped [60] 0 200000 = (true, "⏭️ (skipped)") ↔
        (60 : ℚ) - 0 < (200000 : ℚ) / 1000 * (1 / 2)) :=
  ⟨C4_detect_skipped_gap_rule.1 [60] 0 60 (by norm_num [earliestAfter, minAcc]),
   (C4_detect_skipped_gap_rule.2.1 [60] 0 60 200000
      (by norm_num [earliestAfter, minAcc])).1⟩

/-- C5: when no persisted play is strictly later than the current one, the
skip detector returns the unknown indicator, never the skipped or the played
one. -/
theorem C5_no_next_play_unknown (plays : List ℚ) (t : ℚ) (dur : ℕ)
    (h : ∀ x ∈ plays, ¬ t < x) :
    detect_skipped plays t dur = (false, "⏸️ (unknown)")
    ∧ (detect_skipped plays t dur).2 ≠ "⏭️ (skipped)"
    ∧ (detect_skipped plays t dur).2 ≠ "✅ (played)" := by
  have hnone : earliestAfter plays t = none := (earliestAfter_eq_none_iff plays t).mpr h
  rw [detect_skipped, hnone]
  refine ⟨rfl, by simp, by simp⟩

/-- Closed instance of `C5_no_next_play_unknown`: a play at t = 100 whose only
recorded neighbour is earlier, at t = 40. -/
theorem C5_no_next_play_unknown_witness :
    detect_skipped [40] 100 200000 = (false, "⏸️ (unknown)")
    ∧ (detect_skipped [40] 100 200000).2 ≠ "⏭️ (skipped)"
    ∧ (detect_skipped [40] 100 200000).2 ≠ "✅ (played)" :=
  C5_no_next_play_unknown [40] 100 200000 (by norm_num)

/-- The validation phase of `get_audio_features` (`src/backend/ingest.py`,
lines 124-149): reject a missing token, an empty identifier list, and a list
of more than 100 identifiers, in that order, before the network request is
built; `Except.ok ()` means the request proceeds to the network. -/
def get_audio_features_check (access_token : String) (ids : List String) :
    Except String Unit :=
  if access_token = "" then Except.error "access_token is required"
  else if ids = [] then Except.error "ids must be a non-empty list"
  else if ids.length > 100 then
    Except.error "Can only request features for max 100 tracks at a time"
  else Except.ok ()

/-- C6: more than 100 identifiers is rejected with an error before any network
call; for at most 100 identifiers the size check never fires. -/
theorem C6_batch_ceiling :
    (∀ (access_token : String) (ids : List String), 100 < ids.length →
      ∃ e, get_audio_features_check access_token ids = Except.error e)
    ∧ (∀ (access_token : String) (ids : List String), ids.length ≤ 100 →
      get_audio_features_check access_token ids ≠
        Except.error "Can only request features for max 100 tracks at a time") := by
  constructor
  · intro tok ids h
    by_cases htok : tok = ""
    · exact ⟨"access_token is required", by simp [get_audio_features_check, htok]⟩
    · have hne : ids ≠ [] := by
        intro he
        rw [he] at h
        simp at h
      exact ⟨"Can only request features for max 100 tracks at a time",
        by simp [get_audio_features_check, htok, hne, h]⟩
  · intro tok ids h
    by_cases htok : tok = ""
    · simp [get_audio_features_check, htok]
    · by_cases hne : ids = []
      · simp [get_audio_features_check, htok, hne]
      · have h' : ¬ ids.length > 100 := by omega
        simp [get_audio_features_check, htok, hne, h']

/-- Closed instance of `C6_batch_ceiling`: a batch of 101 identifiers is
rejected, and a batch of 100 does not trigger the size error. -/
theorem C6_batch_ceiling_witness :
    (∃ e, get_audio_features_check "token" (List.replicate 101 "id") =
      Except.error e)
    ∧ get_audio_features_check "token" (List.replicate 100 "id") ≠
      Except.error "Can only request features for max 100 tracks at a time" :=
  ⟨C6_batch_ceiling.1 "token" (List.replicate 101 "id") (by simp),
   C6_batch_ceiling.2 "token" (List.replicate 100 "id") (by simp)⟩

/-- One row of the `tracks` table as touched by ingestion: the insert fills
`track_id, track_name, artist, duration_ms, popularity, genre`; the four
numeric attributes stay NULL until enrichment. -/
structure TrackRow where
  track_id : String
  track_name : String
  artist : String
  duration_ms : Int
  popularity : Int
  genre : Option String
  energy : Option ℚ
  danceability : Option ℚ
  valence : Option ℚ
  tempo : Option ℚ
  deriving Repr, DecidableEq

/-- Whether a `track_id` is already present in the `tracks` table. -/
def trackExists (db : List TrackRow) (tid : String) : Bool :=
  db.any (fun r => decide (r.track_id = tid))

/-- `INSERT OR IGNORE INTO tracks(...)` (`src/backend/ingest.py`, lines
301-304): the row is appended only when its `track_id` is absent; an existing
row is left entirely untouched. -/
def insertTrackIfAbsent (db : List TrackRow) (r : TrackRow) : List TrackRow :=
  if trackExists db r.track_id then db else db ++ [r]

/-- One entry of a successful audio-features response: `f["id"]` and the four
numeric attributes `f.get("energy")`, `f.get("danceability")`,
`f.get("valence")`, `f.get("tempo")` (each possibly null). -/
structure AudioFeatures where
  id : String
  energy : Option ℚ
  danceability : Option ℚ
  valence : Option ℚ
  tempo : Option ℚ
  deriving Repr, DecidableEq

/-- `UPDATE tracks SET energy=?, danceability=?, valence=?, tempo=? WHERE
track_id=?` (`src/backend/ingest.py`, lines 356-365): every row matching the
feature's id gets all four numeric fields replaced, whatever they held. -/
def applyAudioFeatures (db : List TrackRow) (f : AudioFeatures) : List TrackRow :=
  db.map (fun r =>
    if r.track_id = f.id then
      { r with energy := f.energy, danceability := f.danceability,
               valence := f.valence, tempo := f.tempo }
    else r)

/-- The body of a successful batch: `for f in features.get("audio_features", [])`,
skipping null entries (`if not f: continue`) and applying the update for the
rest. -/
def applyFeatureList (db : List TrackRow) (feats : List (Option AudioFeatures)) :
    List TrackRow :=
  feats.foldl (fun d of =>
    match of with
    | none => d
    | some f => applyAudioFeatures d f) db

/-- The audio-features batch loop (`src/backend/ingest.py`, lines 346-369).
The remote call is an `Except`-valued oracle; a failing batch is skipped
(`except ...: continue`) and the loop proceeds with the next batch. -/
def enrichLoop
    (fetch : List String → Except String (List (Option AudioFeatures))) :
    List (List String) → List TrackRow → List TrackRow
  | [], db => db
  | batch :: rest, db =>
    match fetch batch with
    | Except.error _ => enrichLoop fetch rest db
    | Except.ok feats => enrichLoop fetch rest (applyFeatureList db feats)

/-- `range(0, len(track_ids), 100)` batching: split the id list into
consecutive chunks of at most 100. -/
def chunk100 : List String → List (List String)
  | [] => []
  | x :: xs => ((x :: xs).take 100) :: chunk100 ((x :: xs).drop 100)
termination_by l => l.length
decreasing_by
  simp [List.length_drop]
  omega

/-- Python truthiness of the stored genre (`if not current_genre`): NULL or
the empty string count as missing. -/
def genreMissing : Option String → Bool
  | none => true
  | some s => decide (s = "")

/-- `UPDATE tracks SET genre = ? WHERE track_id = ?`
(`src/backend/ingest.py`, line 340). -/
def updateGenre (db : List TrackRow) (tid : String) (g : String) : List TrackRow :=
  db.map (fun r => if r.track_id = tid then { r with genre := some g } else r)

/-- The genre backfill pass of `main` (`src/backend/ingest.py`, lines
327-343).  `get_artist_genres` is imported from `spotify_ops` but absent from
it, so the lookup is an `Except`-valued oracle; `artistOf` is
`track_artist_map.get`.  The `try` block wraps the whole `for` loop, so a
failing lookup aborts the remaining iterations; the surrounding `except`
only logs, which this total function models by returning the table as it
stood at the failure. -/
def backfillGenres (lookup : String → Except String (List String))
    (artistOf : String → Option String) :
    List String → List TrackRow → List TrackRow
  | [], db => db
  | tid :: rest, db =>
    let current : Option String :=
      match db.find? (fun r => decide (r.track_id = tid)) with
      | some r => r.genre
      | none => none
    if genreMissing current then
      match artistOf tid with
      | some aid =>
        match lookup aid with
        | Except.error _ => db
        | Except.ok genres =>
          match genres.head? with
          | some g =>
            if g = "" then backfillGenres lookup artistOf rest db
            else backfillGenres lookup artistOf rest (updateGenre db tid g)
          | none => backfillGenres lookup artistOf rest db
      | none => backfillGenres lookup artistOf rest db
    else backfillGenres lookup artistOf rest db

/-- C8: a batch whose remote audio-features call fails leaves the tracks table
exactly as it was (no partial writes from that batch) and the loop still
processes the remaining batches; if every batch fails the table is unchanged;
a successful batch after a failed one is still applied. -/
theorem C8_enrichment_failure_isolation :
    (∀ (fetch : List String → Except String (List (Option AudioFeatures)))
       (batch : List String) (rest : List (List String)) (db : List TrackRow)
       (e : String),
      fetch batch = Except.error e →
      enrichLoop fetch (batch :: rest) db = enrichLoop fetch rest db)
    ∧ (∀ (fetch : List String → Except String (List (Option AudioFeatures)))
       (batches : List (List String)) (db : List TrackRow),
      (∀ b ∈ batches, ∃ e, fetch b = Except.error e) →
      enrichLoop fetch batches db = db)
    ∧ (∀ (fetch : List String → Except String (List (Option AudioFeatures)))
       (b1 b2 : List String) (db : List TrackRow) (e : String)
       (feats : List (Option AudioFeatures)),
      fetch b1 = Except.error e → fetch b2 = Except.ok feats →
      enrichLoop fetch [b1, b2] db = applyFeatureList db feats) := by
  refine ⟨?_, ?_, ?_⟩
  · intro fetch batch rest db e h
    simp [enrichLoop, h]
  · intro fetch batches
    induction batches with
    | nil => intro db _; rfl
    | cons b rest ih =>
      intro db h
      obtain ⟨e, he⟩ := h b (by simp)
      rw [enrichLoop, he]
      exact ih db (fun b' hb' => h b' (by simp [hb']))
  · intro fetch b1 b2 db e feats h1 h2
    simp [enrichLoop, h1, h2]

/-- Closed instance of `C8_enrichment_failure_isolation`: with a remote call
that always fails, the first batch is skipped with the table untouched and the
second batch is still attempted. -/
theorem C8_enrichment_failure_isolation_witness :
    enrichLoop (fun _ => (Except.error "HTTP 500" :
        Except String (List (Option AudioFeatures)))) [["t1"], ["t2"]] [] =
      enrichLoop (fun _ => Except.error "HTTP 500") [["t2"]] []
    ∧ enrichLoop (fun _ => (Except.error "HTTP 500" :
        Except String (List (Option AudioFeatures)))) [["t1"], ["t2"]] [] = [] :=
  ⟨C8_enrichment_failure_isolation.1 _ ["t1"] [["t2"]] [] "HTTP 500" rfl,
   C8_enrichment_failure_isolation.2.1 _ [["t1"], ["t2"]] []
     (fun _ _ => ⟨"HTTP 500", rfl⟩)⟩

/-- A track row already fully enriched by a previous run. -/
def enrichedTrack : TrackRow :=
  ⟨"t1", "Song One", "Artist One", 200000, 10, some "rock",
   some (1 / 2), some (1 / 2), some (1 / 2), some 100⟩

/-- A later features response for the same track carrying different values. -/
def refreshedFeatures : AudioFeatures :=
  ⟨"t1", some (9 / 10), some (2 / 5), some (3 / 10), some 120⟩

/-- C7 counterexample: a track whose `energy` is already non-null is
re-enriched by a successful batch and its non-null numeric field is
overwritten — enrichment does not mutate only currently-null fields. -/
theorem C7_nonnull_overwrite_counterexample :
    enrichedTrack.energy = some (1 / 2)
    ∧ (enrichLoop (fun _ => Except.ok [some refreshedFeatures]) [["t1"]]
        [enrichedTrack]).map TrackRow.energy = [some (9 / 10)] := by
  constructor
  · rfl
  · rfl

/-- C7 amended: a track row is inserted only if its identifier is absent and a
duplicate insert leaves the existing row untouched; the backfill pass skips a
track whose stored genre is already non-null and non-empty; but the four
numeric attribute fields of a row matching a returned feature entry are
overwritten unconditionally, whether or not they were null. -/
theorem C7_track_upsert_amended :
    (∀ (db : List TrackRow) (r : TrackRow), trackExists db r.track_id = true →
      insertTrackIfAbsent db r = db)
    ∧ (∀ (db : List TrackRow) (r : TrackRow), trackExists db r.track_id = false →
      insertTrackIfAbsent db r = db ++ [r])
    ∧ (∀ (lookup : String → Except String (List String))
       (artistOf : String → Option String) (tid : String) (rest : List String)
       (db : List TrackRow) (r : TrackRow),
      db.find? (fun x => decide (x.track_id = tid)) = some r →
      genreMissing r.genre = false →
      backfillGenres lookup artistOf (tid :: rest) db =
        backfillGenres lookup artistOf rest db)
    ∧ (∀ (db : List TrackRow) (f : AudioFeatures) (r : TrackRow),
      r ∈ db → r.track_id = f.id →
      { r with energy := f.energy, danceability := f.danceability,
               valence := f.valence, tempo := f.tempo } ∈ applyAudioFeatures db f) := by
  refine ⟨?_, ?_, ?_, ?_⟩
  · intro db r h
    simp [insertTrackIfAbsent, h]
  · intro db r h
    simp [insertTrackIfAbsent, h]
  · intro lookup artistOf tid rest db r hfind hmiss
    simp [backfillGenres, hfind, hmiss]
  · intro db f r hr hid
    have hmem := List.mem_map_of_mem (fun r =>
      if r.track_id = f.id then
        { r with energy := f.energy, danceability := f.danceability,
                 valence := f.valence, tempo := f.tempo }
      else r) hr
    simpa [applyAudioFeatures, hid] using hmem

/-- Closed instance of `C7_track_upsert_amended`: re-inserting an existing
track changes nothing, and a feature entry for it replaces all four numeric
fields. -/
theorem C7_track_upsert_amended_witness :
    insertTrackIfAbsent [enrichedTrack] enrichedTrack = [enrichedTrack]
    ∧ ({ enrichedTrack with
          energy := refreshedFeatures.energy,
          danceability := refreshedFeatures.danceability,
          valence := refreshedFeatures.valence,
          tempo := refreshedFeatures.tempo } ∈
        applyAudioFeatures [enrichedTrack] refreshedFeatures) :=
  ⟨C7_track_upsert_amended.1 [enrichedTrack] enrichedTrack (by decide),
   C7_track_upsert_amended.2.2.2 [enrichedTrack] refreshedFeatures enrichedTrack
     (by simp) rfl⟩

/-- A first track still lacking a genre after the main pass. -/
def trackOne : TrackRow :=
  ⟨"t1", "Song One", "Artist One", 200000, 10, none, none, none, none, none⟩

/-- A second track still lacking a genre after the main pass. -/
def trackTwo : TrackRow :=
  ⟨"t2", "Song Two", "Artist Two", 180000, 20, none, none, none, none, none⟩

/-- A genre lookup that fails for artist a1 and succeeds for artist a2. -/
def flakyLookup : String → Except String (List String) :=
  fun aid => if aid = "a1" then Except.error "timeout" else Except.ok ["rock"]

/-- The primary-artist map (`track_artist_map`) built during the main pass. -/
def demoArtistOf : String → Option String :=
  fun tid => if tid = "t1" then some "a1" else some "a2"

/-- C9 counterexample: both tracks have null genre and the lookup for the
second track's artist succeeds, yet after the backfill pass the second track's
genre is still null — the failure on the first track's lookup aborted the pass,
so not every null-genre track is re-attempted. -/
theorem C9_backfill_counterexample :
    flakyLookup "a2" = Except.ok ["rock"]
    ∧ trackTwo.genre = none
    ∧ backfillGenres flakyLookup demoArtistOf ["t1", "t2"] [trackOne, trackTwo] =
        [trackOne, trackTwo] := by
  refine ⟨rfl, rfl, ?_⟩
  rfl

/-- C9 amended: in the backfill pass a null-genre track whose lookup succeeds
with a non-empty genre gets its genre set and the pass continues; rows updated
for a track id carry that genre; but a failing lookup ends the whole pass with
the table as it stands (the error is caught outside the loop and only logged,
so nothing propagates out of the run), leaving the remaining tracks
unattempted. -/
theorem C9_genre_backfill_amended :
    (∀ (lookup : String → Except String (List String))
       (artistOf : String → Option String) (tid aid g : String)
       (gs : List String) (rest : List String) (db : List TrackRow)
       (r : TrackRow),
      db.find? (fun x => decide (x.track_id = tid)) = some r →
      genreMissing r.genre = true →
      artistOf tid = some aid → lookup aid = Except.ok (g :: gs) → g ≠ "" →
      backfillGenres lookup artistOf (tid :: rest) db =
        backfillGenres lookup artistOf rest (updateGenre db tid g))
    ∧ (∀ (db : List TrackRow) (tid g : String) (r : TrackRow),
      r ∈ updateGenre db tid g → r.track_id = tid → r.genre = some g)
    ∧ (∀ (lookup : String → Except String (List String))
       (artistOf : String → Option String) (tid aid e : String)
       (rest : List String) (db : List TrackRow) (r : TrackRow),
      db.find? (fun x => decide (x.track_id = tid)) = some r →
      genreMissing r.genre = true →
      artistOf tid = some aid → lookup aid = Except.error e →
      backfillGenres lookup artistOf (tid :: rest) db = db) := by
  refine ⟨?_, ?_, ?_⟩
  · intro lookup artistOf tid aid g gs rest db r hfind hmiss hart hlook hne
    simp [backfillGenres, hfind, hmiss, hart, hlook, hne]
  · intro db tid g r hr htid
    rw [updateGenre, List.mem_map] at hr
    obtain ⟨r0, hr0, heq⟩ := hr
    by_cases h0 : r0.track_id = tid
    · rw [if_pos h0] at heq
      rw [← heq]
    · rw [if_neg h0] at heq
      rw [← heq] at htid
      exact absurd htid h0
  · intro lookup artistOf tid aid e rest db r hfind hmiss hart hlook
    simp [backfillGenres, hfind, hmiss, hart, hlook]

/-- Closed instance of `C9_genre_backfill_amended`: the failure conjunct on the
two-track table, and the success conjunct on the single remaining track. -/
theorem C9_genre_backfill_amended_witness :
    backfillGenres flakyLookup demoArtistOf ["t1", "t2"] [trackOne, trackTwo] =
      [trackOne, trackTwo]
    ∧ backfillGenres (fun _ => Except.ok ["rock"]) demoArtistOf ["t2"] [trackTwo] =
      backfillGenres (fun _ => Except.ok ["rock"]) demoArtistOf []
        (updateGenre [trackTwo] "t2" "rock") :=
  ⟨C9_genre_backfill_amended.2.2 flakyLookup demoArtistOf "t1" "a1" "timeout"
      ["t2"] [trackOne, trackTwo] trackOne rfl rfl rfl rfl,
   C9_genre_backfill_amended.1 (fun _ => Except.ok ["rock"]) demoArtistOf
      "t2" "a2" "rock" [] [] [trackTwo] trackTwo rfl rfl rfl rfl
      (by decide)⟩

/-- One row of the `download_history` checkpoint table:
`last_downloaded_at` and `songs_downloaded`. -/
structure DownloadRow where
  last_downloaded_at : ℚ
  songs_downloaded : ℕ
  deriving Repr, DecidableEq

/-- `max([item["played_at"] for item in data.get("items", [])], default=None)`
(`src/backend/ingest.py`, line 376). -/
def latestPlayedAt (items : List PlayItem) : Option ℚ :=
  items.foldl (fun acc it =>
    match acc with
    | none => some it.playedAt
    | some m => some (max m it.playedAt)) none

/-- The checkpoint phase of `main` (`src/backend/ingest.py`, lines 374-378)
together with `save_download_history` (lines 109-122): append a
`download_history` row only when `new_plays_count > 0` and a latest play
exists. -/
def saveCheckpointPhase (history : List DownloadRow) (items : List PlayItem)
    (new_plays_count : ℕ) : List DownloadRow :=
  if 0 < new_plays_count then
    match latestPlayedAt items with
    | some t => history ++ [⟨t, new_plays_count⟩]
    | none => history
  else history

/-- C10: a completed run appends a `download_history` row only when the
persistence loop inserted at least one new play; a run whose new-play count is
zero leaves the checkpoint table unchanged. -/
theorem C10_checkpoint_only_on_new_plays
    (history : List DownloadRow) (items : List PlayItem) (db : List PlayRow) :
    (saveCheckpointPhase history items (ingestPlays items db).2 ≠ history →
      0 < (ingestPlays items db).2)
    ∧ ((ingestPlays items db).2 = 0 →
      saveCheckpointPhase history items (ingestPlays items db).2 = history) := by
  constructor
  · intro hne
    by_contra hz
    have h0 : (ingestPlays items db).2 = 0 := by omega
    exact hne (by simp [saveCheckpointPhase, h0])
  · intro h0
    simp [saveCheckpointPhase, h0]

/-- Closed instance of `C10_checkpoint_only_on_new_plays`: re-ingesting an
already-present play inserts nothing and leaves the checkpoint table
unchanged. -/
theorem C10_checkpoint_only_on_new_plays_witness :
    saveCheckpointPhase [⟨3, 1⟩] [⟨"t1", 5, "c"⟩]
      (ingestPlays [⟨"t1", 5, "c"⟩] [⟨"t1", 5, "c"⟩]).2 = [⟨3, 1⟩] :=
  (C10_checkpoint_only_on_new_plays [⟨3, 1⟩] [⟨"t1", 5, "c"⟩]
    [⟨"t1", 5, "c"⟩]).2 (by decide)
